import Mathlib

/-!
Verification development for the `vault` Go library (a client-side credential
broker over Hashicorp Vault).

The definitions below are a shallow embedding of the repository's source:

* `Token` / `Token.getToken` embed `types.go` (the standing-token strategy);
* `AppRole` and its helpers embed the approle strategy file
  (`AppRole.GetToken`, `unwrap`, `new`, `renew`, `setexpiry`);
* `Client.read`/`write`/`delete`/`list` and `Client.newPollPhase` embed
  `vault.go`;
* `Data` and its accessors embed the data encoding helpers, and `GoErr`
  embeds the error types and their `Error()`/`Is` methods.

Conventions:
* Timestamps and durations are `Int` "time units" (seconds);
  the Go zero `time.Time` is embedded as the integer `0`
  (real clock readings are positive).
* External effects (file reads, RPC calls) are embedded as an environment
  record holding the outcome each call would produce, and every operation
  additionally returns the list of effect events it performed, in order.
  Both Go credential providers hold their per-instance mutex for the whole
  body of `GetToken`, so N concurrent calls execute as N sequential calls
  in some order; concurrency claims are therefore stated over sequential
  iteration (`iterCalls`).
* Go's `fmt.Errorf("op: %w", err)` is embedded as string prefixing for the
  provider layer and as the structured `GoErr.wrapped` for the client layer.
-/

deriving instance DecidableEq for Except

namespace Vault

/-- Events produced by `Token.GetToken` (file read, lookup-self RPC,
renew-self RPC), each carrying the token/path it was issued with. -/
inductive TokenEvent
  | readFileEv (path : String)
  | lookupSelfEv (usedToken : String)
  | renewSelfEv (usedToken : String)
deriving DecidableEq, Repr

/-- Result of the `/auth/token/lookup-self` RPC, as consumed by
`Token.GetToken` in `types.go`: the `creation_ttl` field after the
`json.Number -> Int64` conversion (which can fail, hence `Except`), and the
optional `expire_time` field (already parsed to a timestamp; `none` embeds a
`nil` value). -/
structure LookupSelfSecret where
  creation_ttl : Except String Int
  expire_time : Option Int
deriving DecidableEq, Repr

/-- Outcomes of the external effects `Token.GetToken` can perform. -/
structure TokenEnv where
  readFileResult : Except String String
  lookupSelfResult : Except String LookupSelfSecret
  renewSelfResult : Except String Unit
deriving DecidableEq, Repr

/-- Mutable state of a `Token` instance (`types.go`): the raw token, the
optional token file path, and the cached expiry (`0` = Go's zero time,
meaning "not yet determined"). -/
structure Token where
  token : String
  token_file : String
  expires : Int
deriving DecidableEq, Repr

/-- Embedding of `AddDate(1000, 0, 0)`: 1000 years of seconds. -/
def thousandYears : Int := 31536000000

/-- Embedding of `Token.GetToken` from `types.go`, lines 77-134.
Returns the post-call state, the (token, error) result and the list of
external effects performed, in order. -/
def Token.getToken (env : TokenEnv) (now : Int) (t : Token) :
    Token × Except String String × List TokenEvent :=
  -- prefer token file over configured token
  if t.token_file.length ≠ 0 then
    match env.readFileResult with
    | .error e => (t, .error ("gettoken: " ++ e), [.readFileEv t.token_file])
    | .ok bytes => (t, .ok bytes, [.readFileEv t.token_file])
  -- if the token lifetime has not expired, return it
  else if now < t.expires then
    (t, .ok t.token, [])
  -- first call: introspect via /auth/token/lookup-self
  else if t.expires = 0 then
    match env.lookupSelfResult with
    | .error e => (t, .error ("gettoken: " ++ e), [.lookupSelfEv t.token])
    | .ok secret =>
      match secret.creation_ttl with
      | .error e => (t, .error ("gettoken: " ++ e), [.lookupSelfEv t.token])
      | .ok ttl0 =>
        let ttl := if ttl0 > 20 then ttl0 - 10 else ttl0
        match secret.expire_time with
        | some tm =>
          ({ t with expires := tm + ttl }, .ok t.token, [.lookupSelfEv t.token])
        | none =>
          ({ t with expires := now + thousandYears }, .ok t.token,
            [.lookupSelfEv t.token])
  -- try to renew the token
  else
    match env.renewSelfResult with
    | .error e => (t, .error ("gettoken: " ++ e), [.renewSelfEv t.token])
    | .ok _ => (t, .ok t.token, [.renewSelfEv t.token])

/-- Events produced by `AppRole.GetToken` (unwrap / login / renew-self RPCs),
carrying the credentials each RPC was issued with. -/
inductive AREvent
  | unwrapEv (usedToken : String)
  | loginEv (roleId secretId : String)
  | renewEv (usedToken : String)
deriving DecidableEq, Repr

/-- Embedding of `hvault.SecretAuth` as used by the approle strategy. -/
structure SecretAuth where
  clientToken : String
  leaseDuration : Int
deriving DecidableEq, Repr

/-- Result of the `sys/wrapping/unwrap` RPC as consumed by `AppRole.unwrap`:
the `secret_id_ttl` field after `json.Number -> Int64` conversion and the
`secret_id` string. -/
structure UnwrapSecret where
  secret_id_ttl : Except String Int
  secret_id : String
deriving DecidableEq, Repr

/-- Outcomes of the external RPCs `AppRole.GetToken` can perform. -/
structure AppRoleEnv where
  unwrapResult : Except String UnwrapSecret
  loginResult : Except String SecretAuth
  renewResult : Except String SecretAuth
deriving DecidableEq, Repr

/-- Whether an approle event is the unwrap RPC. -/
def AREvent.isUnwrap : AREvent → Bool
  | .unwrapEv _ => true
  | _ => false

/-- Mutable state of an `AppRole` instance: role/secret material, the
optional one-time unwrap token, the cached auth block and its expiry. -/
structure AppRole where
  role_id : String
  secret_id : String
  unwrap_token : String
  auth : Option SecretAuth
  expires : Int
deriving DecidableEq, Repr

/-- Embedding of `ar.auth.ClientToken` (read after `auth` is known set). -/
def AppRole.currentToken (ar : AppRole) : String :=
  match ar.auth with
  | some a => a.clientToken
  | none => ""

/-- Embedding of `AppRole.setexpiry`: reduces `LeaseDuration` by 10 when it
exceeds 20 (mutating the auth block, as the Go code does) and returns the
adjusted auth block together with the new absolute expiry `now + lease`. -/
def AppRole.setexpiry (now : Int) (a : SecretAuth) : SecretAuth × Int :=
  let a' :=
    if a.leaseDuration > 20 then { a with leaseDuration := a.leaseDuration - 10 }
    else a
  (a', now + a'.leaseDuration)

/-- Embedding of `AppRole.unwrap`: performs the unwrap RPC under the unwrap
token, then (in the Go order) allocates a fresh zero `SecretAuth`, parses
`secret_id_ttl`, stores the unwrapped `secret_id`, sets the lease and the
expiry. -/
def AppRole.unwrapStep (env : AppRoleEnv) (now : Int) (ar : AppRole) :
    AppRole × Except String Unit × List AREvent :=
  match env.unwrapResult with
  | .error e => (ar, .error ("unwrap: " ++ e), [.unwrapEv ar.unwrap_token])
  | .ok u =>
    let ar1 := { ar with auth := some { clientToken := "", leaseDuration := 0 } }
    match u.secret_id_ttl with
    | .error e => (ar1, .error ("unwrap: " ++ e), [.unwrapEv ar.unwrap_token])
    | .ok ttl =>
      let (a2, exp) := AppRole.setexpiry now { clientToken := "", leaseDuration := ttl }
      ({ ar1 with secret_id := u.secret_id, auth := some a2, expires := exp },
        .ok (), [.unwrapEv ar.unwrap_token])

/-- Embedding of `AppRole.new`: fails only when `role_id` AND `secret_id`
are both empty, otherwise posts the login request with both values and on
success stores the returned auth block and recomputes the expiry. -/
def AppRole.newStep (env : AppRoleEnv) (now : Int) (ar : AppRole) :
    AppRole × Except String Unit × List AREvent :=
  if ar.role_id.length = 0 ∧ ar.secret_id.length = 0 then
    (ar, .error "new: missing 'role_id' and 'secret_id' to get new token", [])
  else
    match env.loginResult with
    | .error e => (ar, .error ("new: " ++ e), [.loginEv ar.role_id ar.secret_id])
    | .ok auth =>
      let (a2, exp) := AppRole.setexpiry now auth
      ({ ar with auth := some a2, expires := exp }, .ok (),
        [.loginEv ar.role_id ar.secret_id])

/-- Embedding of `AppRole.renew`: requires a non-empty cached client token,
issues the renew-self RPC under it, and on success stores the returned auth
block and recomputes the expiry. `a` is the cached `ar.auth` block (the Go
code dereferences it, so this is only called when `auth` is set). -/
def AppRole.renewStep (env : AppRoleEnv) (now : Int) (ar : AppRole)
    (a : SecretAuth) : AppRole × Except String Unit × List AREvent :=
  if a.clientToken.length = 0 then
    (ar, .error "renew: missing 'token' for renewal", [])
  else
    match env.renewResult with
    | .error e => (ar, .error ("renew: " ++ e), [.renewEv a.clientToken])
    | .ok auth =>
      let (a2, exp) := AppRole.setexpiry now auth
      ({ ar with auth := some a2, expires := exp }, .ok (), [.renewEv a.clientToken])

/-- Tail of the mint phase of `AppRole.GetToken`: the `secret_id` presence
check followed by the login exchange. `evs` carries events performed by the
earlier phases. -/
def AppRole.mintTail (env : AppRoleEnv) (now : Int) (ar : AppRole)
    (evs : List AREvent) : AppRole × Except String String × List AREvent :=
  if ar.secret_id.length = 0 then
    (ar, .error "gettoken: missing 'secret_id' to get a valid token from Vault", evs)
  else
    let n := AppRole.newStep env now ar
    match n.2.1 with
    | .error e => (n.1, .error ("gettoken: " ++ e), evs ++ n.2.2)
    | .ok _ => (n.1, .ok n.1.currentToken, evs ++ n.2.2)

/-- Mint phase of `AppRole.GetToken` (lines 64-82): optional unwrap (the
unwrap token is cleared only when `unwrap` returned no error), then the
`secret_id` presence check, then the login exchange. `evs` carries events
already performed by the renew phase. -/
def AppRole.mintPhase (env : AppRoleEnv) (now : Int) (ar : AppRole)
    (evs : List AREvent) : AppRole × Except String String × List AREvent :=
  if ar.unwrap_token.length ≠ 0 then
    let u := AppRole.unwrapStep env now ar
    match u.2.1 with
    | .error e => (u.1, .error ("gettoken: " ++ e), evs ++ u.2.2)
    | .ok _ =>
      -- unwrap tokens are one-time use: cleared after a successful unwrap
      let ar2 := { u.1 with unwrap_token := "" }
      AppRole.mintTail env now ar2 (evs ++ u.2.2)
  else
    AppRole.mintTail env now ar evs

/-- Embedding of `AppRole.GetToken`: return the cached token while valid;
otherwise try renew-self first, and on renew failure fall back to the mint
phase (unwrap if an unwrap token is set, then login). -/
def AppRole.getToken (env : AppRoleEnv) (now : Int) (ar : AppRole) :
    AppRole × Except String String × List AREvent :=
  match ar.auth with
  | some a =>
    if a.clientToken.length ≠ 0 ∧ now < ar.expires then
      (ar, .ok a.clientToken, [])
    else
      let r := AppRole.renewStep env now ar a
      match r.2.1 with
      | .ok _ => (r.1, .ok r.1.currentToken, r.2.2)
      | .error _ => AppRole.mintPhase env now r.1 r.2.2
  | none => AppRole.mintPhase env now ar []

/-- Sequential iteration of a provider step: because both providers hold
their instance mutex for the whole body of `GetToken`, N concurrent calls
execute as this sequential composition (in some order; the calls are
symmetric). Returns the final state, the per-call results in order, and the
concatenated event trace. -/
def iterCalls {σ ε : Type} (step : σ → σ × Except String String × List ε) :
    Nat → σ → σ × List (Except String String) × List ε
  | 0, s => (s, [], [])
  | n + 1, s =>
    let r := step s
    let rest := iterCalls step n r.1
    (rest.1, r.2.1 :: rest.2.1, r.2.2 ++ rest.2.2)

/-! ## Data records and the field encoding helpers -/

/-- Embedding of Go `interface` values stored in a `Data` map: strings,
lists (for the `"keys"` envelope field) and anything else. -/
inductive GoVal
  | str (s : String)
  | list (elems : List GoVal)
  | other

/-- Embedding of `Data` (`map[string]interface` with string keys): an
association list, order-irrelevant for lookup. -/
abbrev Data := List (String × GoVal)

/-- Creates new instance of vault data (`NewData`). -/
def NewData : Data := []

/-- Go map indexing `d[field]`. -/
def Data.lookupField : Data → String → Option GoVal
  | [], _ => none
  | (k, v) :: rest, f => if k = f then some v else Data.lookupField rest f

/-- Go map assignment `d[field] = v` (replaces an existing binding). -/
def Data.setField : Data → String → GoVal → Data
  | [], f, v => [(f, v)]
  | (k, w) :: rest, f, v =>
    if k = f then (f, v) :: rest else (k, w) :: Data.setField rest f v

/-- Embedding of `strconv.FormatBool`. -/
def formatBool (b : Bool) : String := if b then "true" else "false"

/-- Embedding of `strconv.ParseBool`: the exact set of accepted literals;
`none` embeds a syntax error (Go then returns the zero value `false`). -/
def parseBool (s : String) : Option Bool :=
  if s = "1" ∨ s = "t" ∨ s = "T" ∨ s = "true" ∨ s = "TRUE" ∨ s = "True" then
    some true
  else if s = "0" ∨ s = "f" ∨ s = "F" ∨ s = "false" ∨ s = "FALSE" ∨ s = "False" then
    some false
  else none

/-- Decimal digits of `n`, most significant first; the first argument is
fuel (`n` itself suffices), making the recursion structural. -/
def decDigitsAux : Nat → Nat → List Nat
  | 0, _ => []
  | fuel + 1, n => if n = 0 then [] else decDigitsAux fuel (n / 10) ++ [n % 10]

/-- Decimal digits of `n`, most significant first (`[0]` for zero). -/
def decDigits (n : Nat) : List Nat := if n = 0 then [0] else decDigitsAux n n

/-- The character for the decimal digit `d`. -/
def digitToChar (d : Nat) : Char := Char.ofNat (48 + d)

/-- Embedding of `strconv.FormatUint(n, 10)`. -/
def formatUint (n : Nat) : String := ⟨(decDigits n).map digitToChar⟩

/-- Numeric value of a decimal digit character, `none` for non-digits. -/
def charDigitVal (c : Char) : Option Nat :=
  if 48 ≤ c.toNat ∧ c.toNat ≤ 57 then some (c.toNat - 48) else none

/-- Embedding of the value returned by `strconv.ParseUint(s, 10, 64)` with
the error discarded (as `Data.GetUint64` does): `0` on a syntax error
(empty string or non-digit characters), the maximum 64-bit value on range
overflow, the parsed value otherwise. -/
def parseUintVal (s : String) : Nat :=
  if s.data = [] then 0
  else if s.data.all (fun c => (charDigitVal c).isSome) then
    let v := s.data.foldl (fun a c => a * 10 + ((charDigitVal c).getD 0)) 0
    if v < 2 ^ 64 then v else 2 ^ 64 - 1
  else 0

/-- The base64 URL alphabet (`base64.URLEncoding`). -/
def b64alpha : List Char :=
  "ABCDEFGHIJKLMNOPQRSTUVWXYZabcdefghijklmnopqrstuvwxyz0123456789-_".data

/-- Character of the 6-bit value `v` in the URL alphabet. -/
def b64char (v : Nat) : Char := b64alpha.getD v 'A'

/-- Scan for the 6-bit value of a character. -/
def b64valAux (c : Char) : Nat → List Char → Option Nat
  | _, [] => none
  | i, x :: xs => if x = c then some i else b64valAux c (i + 1) xs

/-- The 6-bit value of a URL-alphabet character, `none` for characters
outside the alphabet (including the padding character). -/
def b64val (c : Char) : Option Nat := b64valAux c 0 b64alpha

/-- Embedding of `base64.URLEncoding.EncodeToString` on byte values:
3-byte groups become 4 alphabet characters, a trailing group of 1 or 2
bytes is padded with `=`. -/
def b64encode : List Nat → List Char
  | [] => []
  | [b1] => [b64char (b1 / 4), b64char (b1 % 4 * 16), '=', '=']
  | [b1, b2] =>
    [b64char (b1 / 4), b64char (b1 % 4 * 16 + b2 / 16), b64char (b2 % 16 * 4), '=']
  | b1 :: b2 :: b3 :: rest =>
    b64char (b1 / 4) :: b64char (b1 % 4 * 16 + b2 / 16) ::
      b64char (b2 % 16 * 4 + b3 / 64) :: b64char (b3 % 64) :: b64encode rest

/-- Embedding of `base64.URLEncoding.DecodeString`: requires 4-character
blocks, padding only in the final block, every other character from the
alphabet; `none` embeds a `CorruptInputError`. Like Go's non-strict
decoder it does not reject non-zero trailing padding bits. -/
def b64decode : List Char → Option (List Nat)
  | [] => some []
  | c1 :: c2 :: c3 :: c4 :: rest =>
    match b64val c1, b64val c2 with
    | some v1, some v2 =>
      if c3 = '=' then
        if c4 = '=' ∧ rest = [] then some [v1 * 4 + v2 / 16] else none
      else
        match b64val c3 with
        | some v3 =>
          if c4 = '=' then
            if rest = [] then some [v1 * 4 + v2 / 16, v2 % 16 * 16 + v3 / 4]
            else none
          else
            match b64val c4 with
            | some v4 =>
              (b64decode rest).map
                (fun bs => (v1 * 4 + v2 / 16) :: (v2 % 16 * 16 + v3 / 4) ::
                  (v3 % 4 * 64 + v4) :: bs)
            | none => none
        | none => none
    | _, _ => none
  | _ => none

/-- Embedding of `Data.GetString`. -/
def Data.GetString (d : Data) (field : String) : String :=
  match Data.lookupField d field with
  | some (.str s) => s
  | _ => ""

/-- Embedding of `Data.GetBool` (`ParseBool` error discarded, zero value
`false` results). -/
def Data.GetBool (d : Data) (field : String) : Bool :=
  match Data.lookupField d field with
  | some (.str v) => (parseBool v).getD false
  | _ => false

/-- Embedding of `Data.GetUint64` (`ParseUint` error discarded). -/
def Data.GetUint64 (d : Data) (field : String) : Nat :=
  match Data.lookupField d field with
  | some (.str v) => parseUintVal v
  | _ => 0

/-- Embedding of `Data.GetBytes`: absent or non-string field and empty
string are explicit errors; otherwise base64 URL decoding, whose failure
is also surfaced as an error (never a default value). -/
def Data.GetBytes (d : Data) (field : String) : Except String (List Nat) :=
  match Data.lookupField d field with
  | some (.str v) =>
    if v.length = 0 then .error ("getbytes:" ++ field ++ " is empty")
    else
      match b64decode v.data with
      | some bs => .ok bs
      | none => .error "getbytes: illegal base64 data"
  | _ => .error ("getbytes: no such field " ++ field)

/-- Embedding of `Data.SetString`. -/
def Data.SetString (d : Data) (field value : String) : Data :=
  Data.setField d field (.str value)

/-- Embedding of `Data.SetBool`. -/
def Data.SetBool (d : Data) (field : String) (value : Bool) : Data :=
  Data.setField d field (.str (formatBool value))

/-- Embedding of `Data.SetUint64`. -/
def Data.SetUint64 (d : Data) (field : String) (value : Nat) : Data :=
  Data.setField d field (.str (formatUint value))

/-- Embedding of `Data.SetBytes`. -/
def Data.SetBytes (d : Data) (field : String) (value : List Nat) : Data :=
  Data.setField d field (.str ⟨b64encode value⟩)

/-! ## Error values (`KeyError`, `FieldError`, `ListError`, wrapping) -/

/-- Embedding of Go error values in this repository: the three custom
comparable kinds, `fmt.Errorf("op: %w", inner)` wrapping, and opaque
errors. -/
inductive GoErr
  | keyError (key : String)
  | fieldError (field : String)
  | listError (rootPath path : String)
  | wrapped (op : String) (inner : GoErr)
  | plain (msg : String)
deriving DecidableEq, Repr

/-- Rendered message (`Error()`): `KeyError`, `FieldError` and `ListError`
render via `ErrKeyNotFound` / `ErrFieldNotFound` / `ErrListPathNotFound`
(the latter quotes the path with `%q`; escaping inside the path is not
modelled); wrapping prepends the operation name. -/
def GoErr.render : GoErr → String
  | .keyError k => "vault: key " ++ k ++ " does not exist"
  | .fieldError f => "vault: field " ++ f ++ " does not exist"
  | .listError _ p => "list: no keys found for given path \"" ++ p ++ "\""
  | .wrapped op e => op ++ ": " ++ GoErr.render e
  | .plain m => m

/-- Whether the error type carries an `Is(target)` method (the three custom
kinds compare by rendered message). -/
def GoErr.hasIsMethod : GoErr → Bool
  | .keyError _ => true
  | .fieldError _ => true
  | .listError _ _ => true
  | _ => false

/-- Embedding of `errors.Is(e, target)` for this repository's errors: at
each level of the unwrap chain, an error with an `Is` method matches when
the rendered messages are equal. -/
def GoErr.goIs : GoErr → GoErr → Bool
  | e, target =>
    (GoErr.hasIsMethod e && (GoErr.render e == GoErr.render target)) ||
      match e with
      | .wrapped _ inner => GoErr.goIs inner target
      | _ => false

/-! ## The client facade (`vault.go`) -/

/-- Embedding of `hvault.Secret`: just the `Data` field (possibly `nil`),
which is all `vault.go` consumes. -/
structure GoSecret where
  data : Option Data

/-- Effect events of a client data operation: the seal-status check, the
credential provider call, and the data RPC itself. -/
inductive ClientEvent
  | sealCheckEv
  | getTokenEv
  | dataRpcEv (op fullPath : String)
deriving DecidableEq, Repr

/-- Outcomes of the external calls a client data operation can perform:
the seal status (or its RPC error), the provider's `GetToken` result, the
(never actually nil) logical client, and the per-operation RPC response. -/
structure ClientEnv where
  sealStatus : Except GoErr Bool
  tokenResult : Except GoErr String
  logicalNil : Bool
  writeResult : Except GoErr (Option GoSecret)
  readResult : Except GoErr (Option GoSecret)
  deleteResult : Except GoErr (Option GoSecret)
  listResult : Except GoErr (Option GoSecret)

/-- Embedding of `Client.Write`: seal check, token fetch, write RPC; the
returned data is the echoed `secret.Data` when both the secret and its data
are non-nil. -/
def Client.write (env : ClientEnv) (store path : String) (_d : Data) :
    Except GoErr (Option Data) × List ClientEvent :=
  match env.sealStatus with
  | .error e => (.error (.wrapped "issealed: seal status" e), [.sealCheckEv])
  | .ok true => (.error (.plain "write: vault is currently sealed"), [.sealCheckEv])
  | .ok false =>
    match env.tokenResult with
    | .error e => (.error (.wrapped "write" e), [.sealCheckEv, .getTokenEv])
    | .ok _ =>
      if env.logicalNil then
        (.error (.plain "write: error creating logical client for Vault"),
          [.sealCheckEv, .getTokenEv])
      else
        match env.writeResult with
        | .error e =>
          (.error (.wrapped "write" e),
            [.sealCheckEv, .getTokenEv, .dataRpcEv "write" (store ++ "/" ++ path)])
        | .ok none =>
          (.ok none,
            [.sealCheckEv, .getTokenEv, .dataRpcEv "write" (store ++ "/" ++ path)])
        | .ok (some s) =>
          (.ok s.data,
            [.sealCheckEv, .getTokenEv, .dataRpcEv "write" (store ++ "/" ++ path)])

/-- Embedding of `Client.Read`: a nil secret (no error, no secret) becomes
the wrapped `KeyError`; otherwise the secret's data is returned as-is
(success even when the data is empty or nil). -/
def Client.read (env : ClientEnv) (store path : String) :
    Except GoErr (Option Data) × List ClientEvent :=
  match env.sealStatus with
  | .error e => (.error (.wrapped "issealed: seal status" e), [.sealCheckEv])
  | .ok true => (.error (.plain "read: vault is currently sealed"), [.sealCheckEv])
  | .ok false =>
    match env.tokenResult with
    | .error e => (.error (.wrapped "read" e), [.sealCheckEv, .getTokenEv])
    | .ok _ =>
      if env.logicalNil then
        (.error (.plain "read: error creating logical client for Vault"),
          [.sealCheckEv, .getTokenEv])
      else
        match env.readResult with
        | .error e =>
          (.error (.wrapped "read" e),
            [.sealCheckEv, .getTokenEv, .dataRpcEv "read" (store ++ "/" ++ path)])
        | .ok none =>
          (.error (.wrapped "read" (.keyError path)),
            [.sealCheckEv, .getTokenEv, .dataRpcEv "read" (store ++ "/" ++ path)])
        | .ok (some s) =>
          (.ok s.data,
            [.sealCheckEv, .getTokenEv, .dataRpcEv "read" (store ++ "/" ++ path)])

/-- Embedding of `Client.Delete`: absence of a prior secret is success with
no data. -/
def Client.delete (env : ClientEnv) (store path : String) :
    Except GoErr (Option Data) × List ClientEvent :=
  match env.sealStatus with
  | .error e => (.error (.wrapped "issealed: seal status" e), [.sealCheckEv])
  | .ok true => (.error (.plain "delete: vault is currently sealed"), [.sealCheckEv])
  | .ok false =>
    match env.tokenResult with
    | .error e => (.error (.wrapped "delete" e), [.sealCheckEv, .getTokenEv])
    | .ok _ =>
      if env.logicalNil then
        (.error (.plain "delete: error creating logical client for Vault"),
          [.sealCheckEv, .getTokenEv])
      else
        match env.deleteResult with
        | .error e =>
          (.error (.wrapped "delete" e),
            [.sealCheckEv, .getTokenEv, .dataRpcEv "delete" (store ++ "/" ++ path)])
        | .ok none =>
          (.ok none,
            [.sealCheckEv, .getTokenEv, .dataRpcEv "delete" (store ++ "/" ++ path)])
        | .ok (some s) =>
          (.ok s.data,
            [.sealCheckEv, .getTokenEv, .dataRpcEv "delete" (store ++ "/" ++ path)])

/-- Result of Go code that can panic: either a runtime panic (from a failed
unchecked type assertion) or a value. -/
inductive GoRes (α : Type)
  | crash (msg : String)
  | value (a : α)

/-- Whether a `GoRes` is a panic. -/
def GoRes.isCrash {α : Type} : GoRes α → Bool
  | .crash _ => true
  | .value _ => false

/-- The per-element `k.(string)` assertions of `Client.List`'s loop: panics
at the first non-string element. -/
def assertStrings : List GoVal → GoRes (List String)
  | [] => .value []
  | .str s :: rest =>
    match assertStrings rest with
    | .value l => .value (s :: l)
    | .crash m => .crash m
  | _ :: _ => .crash "interface conversion: element is not a string"

/-- The `secret.Data["keys"].([]interface)` assertion of `Client.List`:
panics when the field is absent (or the data map is nil) or not a list,
then asserts every element to a string. -/
def extractKeys (d : Option Data) : GoRes (List String) :=
  match (match d with | some m => Data.lookupField m "keys" | none => none) with
  | some (.list l) => assertStrings l
  | _ => .crash "interface conversion: keys is not a list of interface"

/-- Embedding of `Client.List`. The sealed / token-fetch error messages say
`delete:` in the source (a copy-paste slip kept faithfully); a nil secret
is the raw `ListError`; a non-nil secret goes through the unchecked `keys`
extraction, which can panic. -/
def Client.list (env : ClientEnv) (store path : String) :
    GoRes (Except GoErr (List String)) × List ClientEvent :=
  match env.sealStatus with
  | .error e => (.value (.error (.wrapped "issealed: seal status" e)), [.sealCheckEv])
  | .ok true =>
    (.value (.error (.plain "delete: vault is currently sealed")), [.sealCheckEv])
  | .ok false =>
    match env.tokenResult with
    | .error e => (.value (.error (.wrapped "delete" e)), [.sealCheckEv, .getTokenEv])
    | .ok _ =>
      if env.logicalNil then
        (.value (.error (.plain "list: error creating logical client for Vault")),
          [.sealCheckEv, .getTokenEv])
      else
        match env.listResult with
        | .error e =>
          (.value (.error e),
            [.sealCheckEv, .getTokenEv, .dataRpcEv "list" (store ++ "/" ++ path)])
        | .ok none =>
          (.value (.error (.listError store path)),
            [.sealCheckEv, .getTokenEv, .dataRpcEv "list" (store ++ "/" ++ path)])
        | .ok (some s) =>
          match extractKeys s.data with
          | .crash m =>
            (.crash m,
              [.sealCheckEv, .getTokenEv, .dataRpcEv "list" (store ++ "/" ++ path)])
          | .value keys =>
            (.value (.ok keys),
              [.sealCheckEv, .getTokenEv, .dataRpcEv "list" (store ++ "/" ++ path)])

/-! ## Client construction (`New`, lines 16-88): the bounded seal-status
polling phase -/

/-- Events of the construction loop: per-attempt client creation, the
seal-status query, and the fixed-interval sleep. -/
inductive NewEvent
  | newClientEv (attempt : Nat)
  | sealStatusEv (attempt : Nat)
  | sleepEv (seconds : Nat)
deriving DecidableEq, Repr

/-- Whether an event is a seal-status query. -/
def NewEvent.isSealStatus : NewEvent → Bool
  | .sealStatusEv _ => true
  | _ => false

/-- Whether an event is a sleep. -/
def NewEvent.isSleep : NewEvent → Bool
  | .sleepEv _ => true
  | _ => false

/-- Outcomes of the external calls `New` performs, indexed by attempt
number: `hvault.NewClient` and `Sys().SealStatus()` (whose `Option Bool`
is a possibly-nil response carrying the `Sealed` flag). -/
structure NewEnv where
  newClientAt : Nat → Except String Unit
  sealStatusAt : Nat → Except String (Option Bool)

/-- The `for i := 1; i <= v.attempts; i++` loop of `New`: each attempt
creates a client and queries seal status; an RPC error aborts, a non-nil
status breaks out of the loop, a nil status sleeps `retry` seconds and
continues. Recursion is on the remaining attempt count. -/
def pollAux (env : NewEnv) (retry : Nat) : Nat → Nat →
    Except String (Option Bool) × List NewEvent
  | _, 0 => (.ok none, [])
  | i, rem + 1 =>
    match env.newClientAt i with
    | .error e => (.error ("new: " ++ e), [.newClientEv i])
    | .ok _ =>
      match env.sealStatusAt i with
      | .error e =>
        (.error ("new: seal status (1): " ++ e), [.newClientEv i, .sealStatusEv i])
      | .ok (some st) => (.ok (some st), [.newClientEv i, .sealStatusEv i])
      | .ok none =>
        let r := pollAux env retry (i + 1) rem
        (r.1, .newClientEv i :: .sealStatusEv i :: .sleepEv retry :: r.2)

/-- Embedding of `New` up to the end of its bounded polling loop (lines
16-63): the `ok()` store check, the `VAULT_ADDR` check, then up to 12
attempts with a fixed 5-second sleep (both hardcoded in `New`); a nil
status after the full budget is the fatal "unable to obtain seal status"
error. The subsequent unbounded sealed-wait loop (lines 65-75) is outside
the bounded phase. -/
def Client.newPollPhase (env : NewEnv) (store vaultAddr : String) :
    Except String (Option Bool) × List NewEvent :=
  if store.length = 0 then (.error "new: missing vault path", [])
  else if vaultAddr = "" then
    (.error "new: missing environment variable VAULT_ADDR", [])
  else
    let r := pollAux env 5 1 12
    match r.1 with
    | .ok none => (.error "new: unable to obtain seal status of Vault", r.2)
    | other => (other, r.2)

/-- Whether an `Except` result is an error. -/
def isErrRes {ε α : Type} : Except ε α → Bool
  | .error _ => true
  | .ok _ => false

/-! ## Theorems -/

/-- Helper: a `Token.GetToken` call with no token file, strictly before the
cached expiry, returns the cached token, performs no external call, and
leaves the state unchanged. -/
theorem token_getToken_cached (env : TokenEnv) (now : Int) (t : Token)
    (hfile : t.token_file = "") (hlive : now < t.expires) :
    Token.getToken env now t = (t, .ok t.token, []) := by
  simp [Token.getToken, hfile, hlive]

/-- Helper: a `Token.GetToken` call with no token file, at or past a known
(non-zero) expiry, issues the renew-self RPC under the same token; on
success it returns the same token with the state (including the expiry)
unchanged. -/
theorem token_getToken_renew (env : TokenEnv) (now : Int) (t : Token)
    (hfile : t.token_file = "") (hexp : ¬ now < t.expires) (hknown : t.expires ≠ 0)
    (hok : env.renewSelfResult = .ok ()) :
    Token.getToken env now t = (t, .ok t.token, [.renewSelfEv t.token]) := by
  simp [Token.getToken, hfile, hexp, hknown, hok]

/-- C3 counterexample. Standing-token state with known expiry 5, call at
time 9 (past expiry), renew-self succeeds: the call returns the cached
token but the state — in particular `expiresAt` — is completely unchanged
and still lies in the past, so no recomputation of the expiry by the
safety-margin rule (which would give an expiry `≥ now` for any nonnegative
learned lease) took place, contrary to the claim. -/
theorem c3_standing_token_counterexample :
    (Token.getToken ⟨.ok "", .ok ⟨.ok 0, none⟩, .ok ()⟩ 9 ⟨"tok", "", 5⟩).2.1
        = .ok "tok" ∧
    (Token.getToken ⟨.ok "", .ok ⟨.ok 0, none⟩, .ok ()⟩ 9 ⟨"tok", "", 5⟩).1
        = ⟨"tok", "", 5⟩ ∧
    ¬ (9 : Int) <
      (Token.getToken ⟨.ok "", .ok ⟨.ok 0, none⟩, .ok ()⟩ 9 ⟨"tok", "", 5⟩).1.expires := by
  decide

/-- C3 (amended): for the Standing-Token strategy with a known expiry and
no token file, every call strictly before `expiresAt` returns the cached
token with no RPC; every call at or after `expiresAt` issues a renew-self
RPC with the same token and on success returns the same token WITHOUT
recomputing `expiresAt` (the state is unchanged); on renewal failure the
error is propagated with no fallback. -/
theorem c3_standing_token_amended (env : TokenEnv) (now : Int) (t : Token)
    (hfile : t.token_file = "") (hknown : t.expires ≠ 0) :
    (now < t.expires → Token.getToken env now t = (t, .ok t.token, [])) ∧
    (¬ now < t.expires → env.renewSelfResult = .ok () →
      Token.getToken env now t = (t, .ok t.token, [.renewSelfEv t.token])) ∧
    (∀ e, ¬ now < t.expires → env.renewSelfResult = .error e →
      Token.getToken env now t =
        (t, .error ("gettoken: " ++ e), [.renewSelfEv t.token])) := by
  refine ⟨fun hlive => token_getToken_cached env now t hfile hlive,
    fun hexp hok => token_getToken_renew env now t hfile hexp hknown hok,
    fun e hexp herr => ?_⟩
  simp [Token.getToken, hfile, hexp, hknown, herr]

/-- C3 witness: the amended theorem applied at concrete inputs (cached
branch, successful-renew branch, failed-renew branch). -/
theorem c3_standing_token_amended_witness :
    (Token.getToken ⟨.ok "", .ok ⟨.ok 0, none⟩, .ok ()⟩ 3 ⟨"tok", "", 5⟩
        = (⟨"tok", "", 5⟩, .ok "tok", [])) ∧
    (Token.getToken ⟨.ok "", .ok ⟨.ok 0, none⟩, .ok ()⟩ 9 ⟨"tok", "", 5⟩
        = (⟨"tok", "", 5⟩, .ok "tok", [.renewSelfEv "tok"])) ∧
    (Token.getToken ⟨.ok "", .ok ⟨.ok 0, none⟩, .error "boom"⟩ 9 ⟨"tok", "", 5⟩
        = (⟨"tok", "", 5⟩, .error "gettoken: boom", [.renewSelfEv "tok"])) :=
  ⟨(c3_standing_token_amended ⟨.ok "", .ok ⟨.ok 0, none⟩, .ok ()⟩ 3 ⟨"tok", "", 5⟩
      rfl (by decide)).1 (by decide),
   (c3_standing_token_amended ⟨.ok "", .ok ⟨.ok 0, none⟩, .ok ()⟩ 9 ⟨"tok", "", 5⟩
      rfl (by decide)).2.1 (by decide) rfl,
   (c3_standing_token_amended ⟨.ok "", .ok ⟨.ok 0, none⟩, .error "boom"⟩ 9 ⟨"tok", "", 5⟩
      rfl (by decide)).2.2 "boom" (by decide) rfl⟩

/-- Helper: an `AppRole.GetToken` call on a state with a cached, non-empty
client token that has not expired returns the cached token with no RPC and
no state change. -/
theorem appRole_getToken_cached (env : AppRoleEnv) (now : Int) (ar : AppRole)
    (a : SecretAuth) (hauth : ar.auth = some a)
    (htok : a.clientToken.length ≠ 0) (hlive : now < ar.expires) :
    AppRole.getToken env now ar = (ar, .ok a.clientToken, []) := by
  simp [AppRole.getToken, hauth, htok, hlive]

/-- Helper: iterating `AppRole.GetToken` from a live cached state performs
no RPC at all and returns the cached token every time. -/
theorem iterCalls_appRole_steady (env : AppRoleEnv) (now : Int) :
    ∀ (m : Nat) (s : AppRole) (a : SecretAuth), s.auth = some a →
      a.clientToken.length ≠ 0 → now < s.expires →
      iterCalls (AppRole.getToken env now) m s =
        (s, List.replicate m (.ok a.clientToken), []) := by
  intro m
  induction m with
  | zero => intro s a _ _ _; simp [iterCalls]
  | succ n ih =>
    intro s a h1 h2 h3
    simp [iterCalls, appRole_getToken_cached env now s a h1 h2 h3,
      ih s a h1 h2 h3, List.replicate_succ]

/-- Helper: an `AppRole.GetToken` call on an expired state with cached auth
issues exactly the renew-self RPC; on success the new auth block is stored
and the expiry recomputed from `now`. -/
theorem appRole_getToken_renew (env : AppRoleEnv) (now : Int) (ar : AppRole)
    (a a2 : SecretAuth) (hauth : ar.auth = some a)
    (htok : a.clientToken.length ≠ 0) (hexp : ¬ now < ar.expires)
    (hok : env.renewResult = .ok a2) :
    AppRole.getToken env now ar =
      ({ ar with
          auth := some (AppRole.setexpiry now a2).1
          expires := (AppRole.setexpiry now a2).2 },
        .ok (AppRole.setexpiry now a2).1.clientToken, [.renewEv a.clientToken]) := by
  simp [AppRole.getToken, hauth, htok, hexp, AppRole.renewStep, hok,
    AppRole.currentToken]

/-- Helper: `setexpiry` does not change the client token. -/
theorem setexpiry_clientToken (now : Int) (a : SecretAuth) :
    (AppRole.setexpiry now a).1.clientToken = a.clientToken := by
  simp only [AppRole.setexpiry]
  split <;> rfl

/-- Helper: the expiry computed by `setexpiry` is `now` plus the
margin-adjusted lease. -/
theorem setexpiry_expiry (now : Int) (a : SecretAuth) :
    (AppRole.setexpiry now a).2 =
      now + (if a.leaseDuration > 20 then a.leaseDuration - 10
        else a.leaseDuration) := by
  simp only [AppRole.setexpiry]
  split <;> rfl

/-- C1 counterexample. A standing-token provider whose cached token has
just expired (expiry 5, both calls at time 5), renew-self succeeding: two
serialized `GetToken` calls issue TWO renew-self RPCs, not exactly one —
the renewal path never updates the stored expiry, so every caller behind
the lock re-issues the renewal RPC. (Both calls do return the same token.) -/
theorem c1_single_flight_counterexample :
    ((iterCalls (Token.getToken ⟨.ok "", .ok ⟨.ok 0, none⟩, .ok ()⟩ 5) 2
        ⟨"tok", "", 5⟩).2.2.length = 2) ∧
    ¬ ((iterCalls (Token.getToken ⟨.ok "", .ok ⟨.ok 0, none⟩, .ok ()⟩ 5) 2
        ⟨"tok", "", 5⟩).2.2.length = 1) ∧
    ((iterCalls (Token.getToken ⟨.ok "", .ok ⟨.ok 0, none⟩, .ok ()⟩ 5) 2
        ⟨"tok", "", 5⟩).2.1 = [.ok "tok", .ok "tok"]) := by
  decide

/-- C1 (amended): concurrent `GetToken` callers serialize through the
per-instance lock (both implementations hold the mutex for the whole call,
so N concurrent calls execute as N sequential calls), and all callers
obtain the same token. For the AppRole provider, N calls on a just-expired
cache issue exactly one renewal RPC (when the renewed lease is positive):
the first caller renews and recomputes the expiry, the rest hit the cache.
For the Token provider, however, EVERY caller past the expiry issues its
own renew-self RPC, because renewal does not update the stored expiry. -/
theorem c1_single_flight_amended :
    (∀ (env : AppRoleEnv) (now : Int) (ar : AppRole) (a a2 : SecretAuth)
        (n : Nat),
      ar.auth = some a → a.clientToken.length ≠ 0 → ¬ now < ar.expires →
      env.renewResult = .ok a2 → a2.clientToken.length ≠ 0 →
      (0 : Int) < (if a2.leaseDuration > 20 then a2.leaseDuration - 10
        else a2.leaseDuration) →
      (iterCalls (AppRole.getToken env now) (n + 1) ar).2.1 =
          List.replicate (n + 1) (.ok a2.clientToken) ∧
        (iterCalls (AppRole.getToken env now) (n + 1) ar).2.2 =
          [.renewEv a.clientToken]) ∧
    (∀ (env : TokenEnv) (now : Int) (t : Token) (n : Nat),
      t.token_file = "" → ¬ now < t.expires → t.expires ≠ 0 →
      env.renewSelfResult = .ok () →
      (iterCalls (Token.getToken env now) n t).2.1 =
          List.replicate n (.ok t.token) ∧
        (iterCalls (Token.getToken env now) n t).2.2 =
          List.replicate n (.renewSelfEv t.token)) := by
  constructor
  · intro env now ar a a2 n hauth htok hexp hok htok2 hpos
    have hstep := appRole_getToken_renew env now ar a a2 hauth htok hexp hok
    have hlive : now < (AppRole.setexpiry now a2).2 := by
      rw [setexpiry_expiry]; omega
    have hsteady := iterCalls_appRole_steady env now n
      { ar with
        auth := some (AppRole.setexpiry now a2).1
        expires := (AppRole.setexpiry now a2).2 }
      (AppRole.setexpiry now a2).1 rfl
      (by rw [setexpiry_clientToken]; exact htok2) hlive
    simp [iterCalls, hstep, hsteady, List.replicate_succ, setexpiry_clientToken]
  · intro env now t n hfile hexp hknown hok
    induction n with
    | zero => simp [iterCalls]
    | succ m ih =>
      simp [iterCalls, token_getToken_renew env now t hfile hexp hknown hok,
        ih, List.replicate_succ]

/-- C1 witness: the amended theorem at concrete inputs. AppRole: expired
cache at time 10, renew returns a 30-unit lease; two serialized calls give
one renew RPC and twice the renewed token. Token: two serialized calls at
time 5 on expiry 5 give two renew RPCs and twice the cached token. -/
theorem c1_single_flight_amended_witness :
    ((iterCalls
        (AppRole.getToken ⟨.error "x", .error "x", .ok ⟨"newtok", 30⟩⟩ 10) 2
        ⟨"r", "s", "", some ⟨"old", 5⟩, 10⟩).2.1 =
      List.replicate 2 (.ok "newtok") ∧
     (iterCalls
        (AppRole.getToken ⟨.error "x", .error "x", .ok ⟨"newtok", 30⟩⟩ 10) 2
        ⟨"r", "s", "", some ⟨"old", 5⟩, 10⟩).2.2 = [.renewEv "old"]) ∧
    ((iterCalls (Token.getToken ⟨.ok "", .ok ⟨.ok 0, none⟩, .ok ()⟩ 5) 2
        ⟨"tok", "", 5⟩).2.1 = List.replicate 2 (.ok "tok") ∧
     (iterCalls (Token.getToken ⟨.ok "", .ok ⟨.ok 0, none⟩, .ok ()⟩ 5) 2
        ⟨"tok", "", 5⟩).2.2 = List.replicate 2 (.renewSelfEv "tok")) :=
  ⟨c1_single_flight_amended.1 ⟨.error "x", .error "x", .ok ⟨"newtok", 30⟩⟩ 10
      ⟨"r", "s", "", some ⟨"old", 5⟩, 10⟩ ⟨"old", 5⟩ ⟨"newtok", 30⟩ 1
      rfl (by decide) (by decide) rfl (by decide) (by decide),
   c1_single_flight_amended.2 ⟨.ok "", .ok ⟨.ok 0, none⟩, .ok ()⟩ 5
      ⟨"tok", "", 5⟩ 2 rfl (by decide) (by decide) rfl⟩

/-- C2. The AppRole strategy does compute expiry as `now + (L - 10)` for a
learned lease `L > 20` and `now + L` otherwise (first conjunct, covering
login, unwrap and renew, which all go through `setexpiry`). The Token
strategy's self-introspection, however, anchors the adjusted lease at the
reported absolute `expire_time` instead of `now`: with `creation_ttl = 30`
and `expire_time = 100`, a first call at time 50 stores expiry
`100 + (30 - 10) = 120`, not `now + (L - 10) = 70` — the computed expiry
lands AFTER the token's true expiry (100), defeating the early-renewal
margin the code's own comment intends. -/
theorem c2_safety_margin :
    (∀ (now : Int) (a : SecretAuth),
      (AppRole.setexpiry now a).2 =
        now + (if a.leaseDuration > 20 then a.leaseDuration - 10
          else a.leaseDuration)) ∧
    ((Token.getToken ⟨.ok "", .ok ⟨.ok 30, some 100⟩, .ok ()⟩ 50
        ⟨"tok", "", 0⟩).1.expires = 120 ∧
      (120 : Int) ≠ 50 + (30 - 10)) :=
  ⟨setexpiry_expiry, by decide⟩

/-- C4 counterexample. An AppRole state with an EMPTY role identifier but a
non-empty secret issues the login RPC (posting the empty role id) and
succeeds — minting does not require a non-empty role identifier, contrary
to the claim; `new` rejects only when role id and secret are BOTH empty. -/
theorem c4_mint_requirements_counterexample :
    ((AppRole.getToken ⟨.error "x", .ok ⟨"tok", 30⟩, .error "x"⟩ 0
        ⟨"", "s", "", none, 0⟩).2.1 = .ok "tok") ∧
    ((AppRole.getToken ⟨.error "x", .ok ⟨"tok", 30⟩, .error "x"⟩ 0
        ⟨"", "s", "", none, 0⟩).2.2 = [.loginEv "" "s"]) := by
  decide

/-- C4 (amended): minting fails with the missing-credentials error only
when the role identifier and the secret value are BOTH empty (otherwise it
posts the login request with both values as configured, even an empty role
id); and when no secret material is available (no cached auth, no unwrap
token, empty secret id), `GetToken` fails with the explicit missing
`secret_id` error without issuing any RPC. -/
theorem c4_mint_requirements_amended (env : AppRoleEnv) (now : Int)
    (ar : AppRole) :
    (ar.role_id = "" → ar.secret_id = "" →
      AppRole.newStep env now ar =
        (ar, .error "new: missing 'role_id' and 'secret_id' to get new token",
          [])) ∧
    (¬ (ar.role_id.length = 0 ∧ ar.secret_id.length = 0) →
      (AppRole.newStep env now ar).2.2 = [.loginEv ar.role_id ar.secret_id]) ∧
    (ar.auth = none → ar.unwrap_token = "" → ar.secret_id = "" →
      AppRole.getToken env now ar =
        (ar, .error "gettoken: missing 'secret_id' to get a valid token from Vault",
          [])) := by
  refine ⟨fun h1 h2 => ?_, fun h => ?_, fun h1 h2 h3 => ?_⟩
  · simp [AppRole.newStep, h1, h2]
  · simp only [AppRole.newStep]
    rw [if_neg h]
    cases henv : env.loginResult <;> simp
  · simp [AppRole.getToken, h1, AppRole.mintPhase, h2, AppRole.mintTail, h3]

/-- C4 witness: the amended theorem at concrete inputs (both-empty mint
rejection; login event carrying both configured values; missing secret
material error with no RPC). -/
theorem c4_mint_requirements_amended_witness :
    (AppRole.newStep ⟨.error "x", .ok ⟨"tok", 30⟩, .error "x"⟩ 0
        ⟨"", "", "", none, 0⟩ =
      (⟨"", "", "", none, 0⟩,
        .error "new: missing 'role_id' and 'secret_id' to get new token", [])) ∧
    ((AppRole.newStep ⟨.error "x", .ok ⟨"tok", 30⟩, .error "x"⟩ 0
        ⟨"r", "s", "", none, 0⟩).2.2 = [.loginEv "r" "s"]) ∧
    (AppRole.getToken ⟨.error "x", .ok ⟨"tok", 30⟩, .error "x"⟩ 0
        ⟨"r", "", "", none, 0⟩ =
      (⟨"r", "", "", none, 0⟩,
        .error "gettoken: missing 'secret_id' to get a valid token from Vault",
        [])) :=
  ⟨(c4_mint_requirements_amended ⟨.error "x", .ok ⟨"tok", 30⟩, .error "x"⟩ 0
      ⟨"", "", "", none, 0⟩).1 rfl rfl,
   (c4_mint_requirements_amended ⟨.error "x", .ok ⟨"tok", 30⟩, .error "x"⟩ 0
      ⟨"r", "s", "", none, 0⟩).2.1 (by decide),
   (c4_mint_requirements_amended ⟨.error "x", .ok ⟨"tok", 30⟩, .error "x"⟩ 0
      ⟨"r", "", "", none, 0⟩).2.2 rfl rfl rfl⟩

/-- Helper: the login exchange never performs an unwrap RPC. -/
theorem unwrap_filter_newStep (env : AppRoleEnv) (now : Int) (ar : AppRole) :
    ((AppRole.newStep env now ar).2.2).filter AREvent.isUnwrap = [] := by
  simp only [AppRole.newStep]
  split
  · rfl
  · cases h : env.loginResult <;> simp [AREvent.isUnwrap]

/-- Helper: the renew exchange never performs an unwrap RPC. -/
theorem unwrap_filter_renewStep (env : AppRoleEnv) (now : Int) (ar : AppRole)
    (a : SecretAuth) :
    ((AppRole.renewStep env now ar a).2.2).filter AREvent.isUnwrap = [] := by
  simp only [AppRole.renewStep]
  split
  · rfl
  · cases h : env.renewResult <;> simp [AREvent.isUnwrap]

/-- Helper: the renew exchange never touches the stored unwrap token. -/
theorem renewStep_unwrap_token (env : AppRoleEnv) (now : Int) (ar : AppRole)
    (a : SecretAuth) :
    (AppRole.renewStep env now ar a).1.unwrap_token = ar.unwrap_token := by
  simp only [AppRole.renewStep]
  split
  · rfl
  · cases h : env.renewResult <;> rfl

/-- Helper: the tail of the mint phase adds no unwrap RPC to the trace. -/
theorem unwrap_filter_mintTail (env : AppRoleEnv) (now : Int) (ar : AppRole)
    (evs : List AREvent) :
    ((AppRole.mintTail env now ar evs).2.2).filter AREvent.isUnwrap =
      evs.filter AREvent.isUnwrap := by
  simp only [AppRole.mintTail]
  split
  · rfl
  · cases h : (AppRole.newStep env now ar).2.1 <;>
      simp [List.filter_append, unwrap_filter_newStep]

/-- Helper: with no stored unwrap token, the mint phase performs no unwrap
RPC. -/
theorem unwrap_filter_mintPhase (env : AppRoleEnv) (now : Int) (ar : AppRole)
    (evs : List AREvent) (h : ar.unwrap_token = "") :
    ((AppRole.mintPhase env now ar evs).2.2).filter AREvent.isUnwrap =
      evs.filter AREvent.isUnwrap := by
  simp only [AppRole.mintPhase, h]
  simpa using unwrap_filter_mintTail env now ar evs

/-- Helper: once the stored unwrap token is empty, `AppRole.GetToken` never
performs an unwrap RPC, whatever the environment and clock say. -/
theorem appRole_no_unwrap_rpc (env : AppRoleEnv) (now : Int) (ar : AppRole)
    (h : ar.unwrap_token = "") :
    ((AppRole.getToken env now ar).2.2).filter AREvent.isUnwrap = [] := by
  rcases hauth : ar.auth with _ | a
  · simp only [AppRole.getToken, hauth]
    rw [unwrap_filter_mintPhase env now ar [] h]
    rfl
  · simp only [AppRole.getToken, hauth]
    split
    · rfl
    · cases hr : (AppRole.renewStep env now ar a).2.1 with
      | error e =>
        simp only [hr]
        rw [unwrap_filter_mintPhase _ _ _ _ (by rw [renewStep_unwrap_token]; exact h)]
        exact unwrap_filter_renewStep env now ar a
      | ok u =>
        simp only [hr]
        exact unwrap_filter_renewStep env now ar a

/-- C9 (confirmed): with no cached auth and an unwrap token set, a
successful `GetToken` (a) performs the unwrap RPC first and then logs in
with the UNWRAPPED secret id (not a directly configured one), (b) clears
the unwrap token from the state, (c) returns the freshly minted token;
(d) a failing unwrap leaves the unwrap token in place (cleared only on
success) and propagates the error; and (e) from the post-success state no
later `GetToken` call ever performs the unwrap RPC again. -/
theorem c9_unwrap_one_time (env : AppRoleEnv) (now : Int) (ar : AppRole)
    (u : UnwrapSecret) (au : SecretAuth) (lease : Int)
    (hauth : ar.auth = none) (hwrap : ar.unwrap_token.length ≠ 0)
    (hun : env.unwrapResult = .ok u) (httl : u.secret_id_ttl = .ok lease)
    (hsid : u.secret_id.length ≠ 0) (hlog : env.loginResult = .ok au) :
    ((AppRole.getToken env now ar).2.2 =
      [.unwrapEv ar.unwrap_token, .loginEv ar.role_id u.secret_id]) ∧
    ((AppRole.getToken env now ar).1.unwrap_token = "") ∧
    ((AppRole.getToken env now ar).2.1 = .ok au.clientToken) ∧
    (∀ (env2 : AppRoleEnv) (e : String), env2.unwrapResult = .error e →
      (AppRole.getToken env2 now ar).1.unwrap_token = ar.unwrap_token ∧
      (AppRole.getToken env2 now ar).2.1 =
        .error ("gettoken: " ++ ("unwrap: " ++ e))) ∧
    (∀ (env2 : AppRoleEnv) (now2 : Int),
      ((AppRole.getToken env2 now2 (AppRole.getToken env now ar).1).2.2).filter
        AREvent.isUnwrap = []) := by
  have hpost : (AppRole.getToken env now ar).1.unwrap_token = "" := by
    simp [AppRole.getToken, hauth, AppRole.mintPhase, hwrap, AppRole.unwrapStep,
      hun, httl, AppRole.mintTail, hsid, AppRole.newStep, hlog, AppRole.setexpiry]
  refine ⟨?_, hpost, ?_, ?_, ?_⟩
  · simp [AppRole.getToken, hauth, AppRole.mintPhase, hwrap, AppRole.unwrapStep,
      hun, httl, AppRole.mintTail, hsid, AppRole.newStep, hlog, AppRole.setexpiry]
  · simp [AppRole.getToken, hauth, AppRole.mintPhase, hwrap, AppRole.unwrapStep,
      hun, httl, AppRole.mintTail, hsid, AppRole.newStep, hlog,
      AppRole.currentToken, AppRole.setexpiry]
    split <;> rfl
  · intro env2 e he
    constructor <;>
      simp [AppRole.getToken, hauth, AppRole.mintPhase, hwrap,
        AppRole.unwrapStep, he]
  · intro env2 now2
    exact appRole_no_unwrap_rpc env2 now2 _ hpost

/-- C9 witness: the theorem at a concrete input (unwrap token `"w"`,
unwrapped secret `"s2"`, login minting `"t2"`), plus the failing-unwrap
and no-reattempt conclusions at the same input. -/
theorem c9_unwrap_one_time_witness :
    ((AppRole.getToken ⟨.ok ⟨.ok 5, "s2"⟩, .ok ⟨"t2", 7⟩, .error "x"⟩ 0
        ⟨"r", "s", "w", none, 0⟩).2.2 = [.unwrapEv "w", .loginEv "r" "s2"]) ∧
    ((AppRole.getToken ⟨.ok ⟨.ok 5, "s2"⟩, .ok ⟨"t2", 7⟩, .error "x"⟩ 0
        ⟨"r", "s", "w", none, 0⟩).1.unwrap_token = "") ∧
    ((AppRole.getToken ⟨.ok ⟨.ok 5, "s2"⟩, .ok ⟨"t2", 7⟩, .error "x"⟩ 0
        ⟨"r", "s", "w", none, 0⟩).2.1 = .ok "t2") ∧
    ((AppRole.getToken ⟨.error "boom", .ok ⟨"t2", 7⟩, .error "x"⟩ 0
        ⟨"r", "s", "w", none, 0⟩).1.unwrap_token = "w" ∧
      (AppRole.getToken ⟨.error "boom", .ok ⟨"t2", 7⟩, .error "x"⟩ 0
        ⟨"r", "s", "w", none, 0⟩).2.1 =
          .error ("gettoken: " ++ ("unwrap: " ++ "boom"))) ∧
    (((AppRole.getToken ⟨.error "y", .error "y", .error "y"⟩ 9
        (AppRole.getToken ⟨.ok ⟨.ok 5, "s2"⟩, .ok ⟨"t2", 7⟩, .error "x"⟩ 0
          ⟨"r", "s", "w", none, 0⟩).1).2.2).filter AREvent.isUnwrap = []) := by
  have h := c9_unwrap_one_time ⟨.ok ⟨.ok 5, "s2"⟩, .ok ⟨"t2", 7⟩, .error "x"⟩ 0
    ⟨"r", "s", "w", none, 0⟩ ⟨.ok 5, "s2"⟩ ⟨"t2", 7⟩ 5
    rfl (by decide) rfl rfl (by decide) rfl
  exact ⟨h.1, h.2.1, h.2.2.1, h.2.2.2.1 ⟨.error "boom", .ok ⟨"t2", 7⟩, .error "x"⟩
    "boom" rfl, h.2.2.2.2 ⟨.error "y", .error "y", .error "y"⟩ 9⟩

/-- C5 (confirmed): when the seal-status check reports sealed, each of
`Write`, `Read`, `Delete` and `List` returns its sealed error immediately
with only the seal check in its trace — in particular without invoking the
provider's `GetToken` and without issuing the data RPC. (`List` renders
its sealed error with the `delete:` operation name, a copy-paste slip in
the source; the claim only requires "a sealed error".) -/
theorem c5_sealed_short_circuit (env : ClientEnv) (store path : String)
    (d : Data) (hsealed : env.sealStatus = .ok true) :
    (Client.write env store path d =
      (.error (.plain "write: vault is currently sealed"), [.sealCheckEv])) ∧
    (Client.read env store path =
      (.error (.plain "read: vault is currently sealed"), [.sealCheckEv])) ∧
    (Client.delete env store path =
      (.error (.plain "delete: vault is currently sealed"), [.sealCheckEv])) ∧
    (Client.list env store path =
      (.value (.error (.plain "delete: vault is currently sealed")),
        [.sealCheckEv])) ∧
    (ClientEvent.getTokenEv ∉ (Client.write env store path d).2 ∧
      ClientEvent.getTokenEv ∉ (Client.read env store path).2 ∧
      ClientEvent.getTokenEv ∉ (Client.delete env store path).2 ∧
      ClientEvent.getTokenEv ∉ (Client.list env store path).2) ∧
    (∀ (op p2 : String),
      ClientEvent.dataRpcEv op p2 ∉ (Client.write env store path d).2 ∧
      ClientEvent.dataRpcEv op p2 ∉ (Client.read env store path).2 ∧
      ClientEvent.dataRpcEv op p2 ∉ (Client.delete env store path).2 ∧
      ClientEvent.dataRpcEv op p2 ∉ (Client.list env store path).2) := by
  have hw : Client.write env store path d =
      (.error (.plain "write: vault is currently sealed"), [.sealCheckEv]) := by
    simp [Client.write, hsealed]
  have hr : Client.read env store path =
      (.error (.plain "read: vault is currently sealed"), [.sealCheckEv]) := by
    simp [Client.read, hsealed]
  have hd : Client.delete env store path =
      (.error (.plain "delete: vault is currently sealed"), [.sealCheckEv]) := by
    simp [Client.delete, hsealed]
  have hl : Client.list env store path =
      (.value (.error (.plain "delete: vault is currently sealed")),
        [.sealCheckEv]) := by
    simp [Client.list, hsealed]
  refine ⟨hw, hr, hd, hl, ?_, ?_⟩
  · simp [hw, hr, hd, hl]
  · intro op p2
    simp [hw, hr, hd, hl]

/-- C5 witness: the theorem at a concrete sealed environment. -/
theorem c5_sealed_short_circuit_witness :
    (Client.write
        ⟨.ok true, .ok "t", false, .ok none, .ok none, .ok none, .ok none⟩
        "kv" "p" [] =
      (.error (.plain "write: vault is currently sealed"), [.sealCheckEv])) ∧
    (Client.list
        ⟨.ok true, .ok "t", false, .ok none, .ok none, .ok none, .ok none⟩
        "kv" "p" =
      (.value (.error (.plain "delete: vault is currently sealed")),
        [.sealCheckEv])) ∧
    ClientEvent.getTokenEv ∉
      (Client.read
        ⟨.ok true, .ok "t", false, .ok none, .ok none, .ok none, .ok none⟩
        "kv" "p").2 :=
  ⟨(c5_sealed_short_circuit
      ⟨.ok true, .ok "t", false, .ok none, .ok none, .ok none, .ok none⟩
      "kv" "p" [] rfl).1,
   (c5_sealed_short_circuit
      ⟨.ok true, .ok "t", false, .ok none, .ok none, .ok none, .ok none⟩
      "kv" "p" [] rfl).2.2.2.1,
   (c5_sealed_short_circuit
      ⟨.ok true, .ok "t", false, .ok none, .ok none, .ok none, .ok none⟩
      "kv" "p" [] rfl).2.2.2.2.1.2.1⟩

/-- C8 (confirmed): with an unsealed service and a token in hand, a read
whose remote reports no secret (nil secret, no RPC error) fails with the
wrapped `KeyError` for that path; that error matches a freshly constructed
`KeyError` sentinel for the same path by rendered message (`errors.Is`
through the unwrap chain); and a present secret — even one with empty or
nil data — is returned as success. -/
theorem c8_read_missing_key (env : ClientEnv) (store path tok : String)
    (hseal : env.sealStatus = .ok false) (htok : env.tokenResult = .ok tok)
    (hlog : env.logicalNil = false) :
    (env.readResult = .ok none →
      (Client.read env store path).1 = .error (.wrapped "read" (.keyError path))) ∧
    (GoErr.goIs (.wrapped "read" (.keyError path)) (.keyError path) = true) ∧
    (∀ s : GoSecret, env.readResult = .ok (some s) →
      (Client.read env store path).1 = .ok s.data) := by
  refine ⟨fun hnil => ?_, ?_, fun s hs => ?_⟩
  · simp [Client.read, hseal, htok, hlog, hnil]
  · simp [GoErr.goIs, GoErr.hasIsMethod, GoErr.render]
  · simp [Client.read, hseal, htok, hlog, hs]

/-- C8 witness: the theorem at a concrete environment, with a nil secret
(missing key) and with a present secret carrying empty data (success). -/
theorem c8_read_missing_key_witness :
    ((Client.read
        ⟨.ok false, .ok "t", false, .ok none, .ok none, .ok none, .ok none⟩
        "kv" "missing").1 =
      .error (.wrapped "read" (.keyError "missing"))) ∧
    (GoErr.goIs (.wrapped "read" (.keyError "missing"))
      (.keyError "missing") = true) ∧
    ((Client.read
        ⟨.ok false, .ok "t", false, .ok none, .ok (some ⟨some []⟩), .ok none,
          .ok none⟩ "kv" "empty").1 = .ok (some [])) :=
  ⟨(c8_read_missing_key
      ⟨.ok false, .ok "t", false, .ok none, .ok none, .ok none, .ok none⟩
      "kv" "missing" "t" rfl rfl rfl).1 rfl,
   (c8_read_missing_key
      ⟨.ok false, .ok "t", false, .ok none, .ok none, .ok none, .ok none⟩
      "kv" "missing" "t" rfl rfl rfl).2.1,
   (c8_read_missing_key
      ⟨.ok false, .ok "t", false, .ok none, .ok (some ⟨some []⟩), .ok none,
        .ok none⟩ "kv" "empty" "t" rfl rfl rfl).2.2 ⟨some []⟩ rfl⟩

/-- Helper: the element-wise `k.(string)` assertion of `Client.List` panics
whenever some element of the list is not a string. -/
theorem assertStrings_crash :
    ∀ (l : List GoVal) (x : GoVal), x ∈ l → (∀ s, x ≠ .str s) →
      (assertStrings l).isCrash = true := by
  intro l
  induction l with
  | nil => intro x hx _; simp at hx
  | cons y ys ih =>
    intro x hx hns
    cases y with
    | str s =>
      rcases List.mem_cons.mp hx with h | h
      · exact absurd h (hns s)
      · have hcr := ih x h hns
        simp only [assertStrings]
        cases hAs : assertStrings ys with
        | crash m => rfl
        | value l2 => rw [hAs] at hcr; simp [GoRes.isCrash] at hcr
    | list es => simp [assertStrings, GoRes.isCrash]
    | other => simp [assertStrings, GoRes.isCrash]

/-- C10 (confirmed): with an unsealed service, a token in hand and a
non-nil list envelope, `Client.List` extracts `"keys"` via unchecked type
assertions: it panics (rather than returning an error) when the envelope
data lacks a `"keys"` field, when the `"keys"` value is not a list, and
when the list contains a non-string element. -/
theorem c10_list_unchecked_keys (env : ClientEnv) (store path tok : String)
    (d : Data) (hseal : env.sealStatus = .ok false)
    (htok : env.tokenResult = .ok tok) (hlog : env.logicalNil = false)
    (hlist : env.listResult = .ok (some ⟨some d⟩)) :
    (Data.lookupField d "keys" = none →
      (Client.list env store path).1.isCrash = true) ∧
    (∀ v, Data.lookupField d "keys" = some v → (∀ l, v ≠ .list l) →
      (Client.list env store path).1.isCrash = true) ∧
    (∀ l x, Data.lookupField d "keys" = some (.list l) → x ∈ l →
      (∀ s, x ≠ .str s) →
      (Client.list env store path).1.isCrash = true) := by
  refine ⟨fun hmiss => ?_, fun v hv hnl => ?_, fun l x hl hx hns => ?_⟩
  · simp [Client.list, hseal, htok, hlog, hlist, extractKeys, hmiss,
      GoRes.isCrash]
  · cases v with
    | str s => simp [Client.list, hseal, htok, hlog, hlist, extractKeys, hv,
        GoRes.isCrash]
    | list l => exact absurd rfl (hnl l)
    | other => simp [Client.list, hseal, htok, hlog, hlist, extractKeys, hv,
        GoRes.isCrash]
  · have hcr := assertStrings_crash l x hx hns
    simp only [Client.list, hseal, htok, hlog, hlist, extractKeys, hl]
    simp only [if_neg (by simp : ¬ (false = true))]
    cases hAs : assertStrings l with
    | crash m => simp [GoRes.isCrash]
    | value l2 => rw [hAs] at hcr; simp [GoRes.isCrash] at hcr

/-- C10 witness: concrete envelopes exercising the missing-`keys` panic and
the non-string-element panic. -/
theorem c10_list_unchecked_keys_witness :
    ((Client.list
        ⟨.ok false, .ok "t", false, .ok none, .ok none, .ok none,
          .ok (some ⟨some [("notkeys", .str "x")]⟩)⟩
        "kv" "p").1.isCrash = true) ∧
    ((Client.list
        ⟨.ok false, .ok "t", false, .ok none, .ok none, .ok none,
          .ok (some ⟨some [("keys", .list [.str "a", .other])]⟩)⟩
        "kv" "p").1.isCrash = true) :=
  ⟨(c10_list_unchecked_keys _ "kv" "p" "t" [("notkeys", .str "x")]
      rfl rfl rfl rfl).1 rfl,
   (c10_list_unchecked_keys _ "kv" "p" "t" [("keys", .list [.str "a", .other])]
      rfl rfl rfl rfl).2.2 [.str "a", .other] .other rfl
      (by simp) (fun s => by simp)⟩

/-- Helper: when every attempt in the window yields a nil status, the
polling loop runs its full budget: result nil, one seal-status query per
attempt, one fixed-interval sleep per attempt. -/
theorem pollAux_all_none (env : NewEnv) (retry : Nat) :
    ∀ (rem i : Nat),
      (∀ j, i ≤ j → j < i + rem →
        env.newClientAt j = .ok () ∧ env.sealStatusAt j = .ok none) →
      (pollAux env retry i rem).1 = .ok none ∧
      ((pollAux env retry i rem).2.filter NewEvent.isSealStatus).length = rem ∧
      (pollAux env retry i rem).2.filter NewEvent.isSleep =
        List.replicate rem (.sleepEv retry) := by
  intro rem
  induction rem with
  | zero => intro i _; simp [pollAux]
  | succ m ih =>
    intro i h
    have hi := h i (le_refl i) (by omega)
    have ihm := ih (i + 1) (fun j h1 h2 => h j (by omega) (by omega))
    simp only [pollAux, hi.1, hi.2]
    refine ⟨ihm.1, ?_, ?_⟩
    · simp [List.filter, NewEvent.isSealStatus, NewEvent.isSleep, ihm.2.1]
    · simp [List.filter, NewEvent.isSealStatus, NewEvent.isSleep, ihm.2.2,
        List.replicate_succ]

/-- Helper: the polling loop never issues more seal-status queries than its
remaining attempt budget, whatever the environment does. -/
theorem pollAux_bound (env : NewEnv) (retry : Nat) :
    ∀ (rem i : Nat),
      ((pollAux env retry i rem).2.filter NewEvent.isSealStatus).length ≤ rem := by
  intro rem
  induction rem with
  | zero => intro i; simp [pollAux]
  | succ m ih =>
    intro i
    cases hc : env.newClientAt i with
    | error e => simp [pollAux, hc, List.filter, NewEvent.isSealStatus]
    | ok u =>
      cases hs : env.sealStatusAt i with
      | error e =>
        simp [pollAux, hc, hs, List.filter, NewEvent.isSealStatus]
      | ok ost =>
        cases ost with
        | some st =>
          simp [pollAux, hc, hs, List.filter, NewEvent.isSealStatus]
        | none =>
          have := ih (i + 1)
          simp [pollAux, hc, hs, List.filter, NewEvent.isSealStatus]
          omega

/-- Helper: when the first non-nil status arrives at attempt `k` inside the
window, the loop stops there with that status, having queried exactly
`k - i + 1` times. -/
theorem pollAux_stops (env : NewEnv) (retry : Nat) :
    ∀ (rem i k : Nat) (st : Bool), i ≤ k → k < i + rem →
      (∀ j, i ≤ j → j < k →
        env.newClientAt j = .ok () ∧ env.sealStatusAt j = .ok none) →
      env.newClientAt k = .ok () → env.sealStatusAt k = .ok (some st) →
      (pollAux env retry i rem).1 = .ok (some st) ∧
      ((pollAux env retry i rem).2.filter NewEvent.isSealStatus).length =
        k - i + 1 := by
  intro rem
  induction rem with
  | zero => intro i k st h1 h2 _ _ _; omega
  | succ m ih =>
    intro i k st h1 h2 hpre hc hs
    rcases Nat.eq_or_lt_of_le h1 with rfl | hlt
    · simp [pollAux, hc, hs, List.filter, NewEvent.isSealStatus]
    · have hi := hpre i (le_refl i) hlt
      have hrec := ih (i + 1) k st hlt (by omega)
        (fun j ha hb => hpre j (by omega) hb) hc hs
      simp only [pollAux, hi.1, hi.2]
      refine ⟨hrec.1, ?_⟩
      simp [List.filter, NewEvent.isSealStatus, hrec.2]
      omega

/-- Helper: under valid construction inputs, the bounded phase's event
trace is exactly the polling loop's trace, whatever the loop's outcome. -/
theorem newPollPhase_events (env : NewEnv) (store addr : String)
    (hstore : store.length ≠ 0) (haddr : addr ≠ "") :
    (Client.newPollPhase env store addr).2 = (pollAux env 5 1 12).2 := by
  simp only [Client.newPollPhase, if_neg hstore, if_neg haddr]
  split <;> rfl

/-- C6 (confirmed): during construction the seal status is queried up to
the hardcoded 12 attempts with a fixed 5-second sleep between attempts;
if every attempt yields a nil status the budget is exhausted (12 queries,
12 five-second sleeps) and construction fails with the "unable to obtain
seal status" error; the query count never exceeds 12; and the loop stops
at the first attempt that yields a non-null status. -/
theorem c6_bounded_seal_polling (env : NewEnv) (store addr : String)
    (hstore : store.length ≠ 0) (haddr : addr ≠ "") :
    ((∀ j, 1 ≤ j → j ≤ 12 →
        env.newClientAt j = .ok () ∧ env.sealStatusAt j = .ok none) →
      (Client.newPollPhase env store addr).1 =
        .error "new: unable to obtain seal status of Vault" ∧
      ((Client.newPollPhase env store addr).2.filter
        NewEvent.isSealStatus).length = 12 ∧
      (Client.newPollPhase env store addr).2.filter NewEvent.isSleep =
        List.replicate 12 (.sleepEv 5)) ∧
    (((Client.newPollPhase env store addr).2.filter
        NewEvent.isSealStatus).length ≤ 12) ∧
    (∀ (k : Nat) (st : Bool), 1 ≤ k → k ≤ 12 →
      (∀ j, 1 ≤ j → j < k →
        env.newClientAt j = .ok () ∧ env.sealStatusAt j = .ok none) →
      env.newClientAt k = .ok () → env.sealStatusAt k = .ok (some st) →
      (Client.newPollPhase env store addr).1 = .ok (some st) ∧
      ((Client.newPollPhase env store addr).2.filter
        NewEvent.isSealStatus).length = k) := by
  have hev := newPollPhase_events env store addr hstore haddr
  refine ⟨fun hall => ?_, ?_, fun k st hk1 hk2 hpre hc hs => ?_⟩
  · have hA := pollAux_all_none env 5 12 1
      (fun j h1 h2 => hall j h1 (by omega))
    refine ⟨?_, by rw [hev]; exact hA.2.1, by rw [hev]; exact hA.2.2⟩
    simp only [Client.newPollPhase, if_neg hstore, if_neg haddr, hA.1]
  · rw [hev]; exact pollAux_bound env 5 12 1
  · have hS := pollAux_stops env 5 12 1 k st hk1 (by omega) hpre hc hs
    refine ⟨?_, by rw [hev, hS.2]; omega⟩
    simp only [Client.newPollPhase, if_neg hstore, if_neg haddr, hS.1]

/-- C6 witness: with every attempt returning a nil status the bounded phase
fails after exactly 12 queries and 12 five-second sleeps; with the status
arriving at attempt 3 it stops there with 3 queries. -/
theorem c6_bounded_seal_polling_witness :
    ((Client.newPollPhase ⟨fun _ => .ok (), fun _ => .ok none⟩ "kv" "addr").1 =
      .error "new: unable to obtain seal status of Vault") ∧
    ((Client.newPollPhase ⟨fun _ => .ok (), fun _ => .ok none⟩ "kv"
        "addr").2.filter NewEvent.isSleep = List.replicate 12 (.sleepEv 5)) ∧
    ((Client.newPollPhase
        ⟨fun _ => .ok (), fun j => if j < 3 then .ok none else .ok (some false)⟩
        "kv" "addr").1 = .ok (some false)) ∧
    (((Client.newPollPhase
        ⟨fun _ => .ok (), fun j => if j < 3 then .ok none else .ok (some false)⟩
        "kv" "addr").2.filter NewEvent.isSealStatus).length = 3) :=
  ⟨(c6_bounded_seal_polling ⟨fun _ => .ok (), fun _ => .ok none⟩ "kv" "addr"
      (by decide) (by decide)).1 (fun j h1 h2 => ⟨rfl, rfl⟩) |>.1,
   (c6_bounded_seal_polling ⟨fun _ => .ok (), fun _ => .ok none⟩ "kv" "addr"
      (by decide) (by decide)).1 (fun j h1 h2 => ⟨rfl, rfl⟩) |>.2.2,
   (c6_bounded_seal_polling
      ⟨fun _ => .ok (), fun j => if j < 3 then .ok none else .ok (some false)⟩
      "kv" "addr" (by decide) (by decide)).2.2 3 false (by decide) (by decide)
      (fun j h1 h2 => ⟨rfl, by simp [h2]⟩) (by rfl) (by norm_num) |>.1,
   (c6_bounded_seal_polling
      ⟨fun _ => .ok (), fun j => if j < 3 then .ok none else .ok (some false)⟩
      "kv" "addr" (by decide) (by decide)).2.2 3 false (by decide) (by decide)
      (fun j h1 h2 => ⟨rfl, by simp [h2]⟩) (by rfl) (by norm_num) |>.2⟩

/-- Helper: reading a field right after setting it yields the set value
(Go map set/get). -/
theorem lookupField_setField (d : Data) (f : String) (v : GoVal) :
    Data.lookupField (Data.setField d f v) f = some v := by
  induction d with
  | nil => simp [Data.setField, Data.lookupField]
  | cons kv rest ih =>
    by_cases h : kv.1 = f
    · simp [Data.setField, h, Data.lookupField]
    · simp [Data.setField, h, Data.lookupField, ih]

/-- Helper: boolean round trip through the decimal-string encoding. -/
theorem getBool_setBool (d : Data) (f : String) (b : Bool) :
    Data.GetBool (Data.SetBool d f b) f = b := by
  simp only [Data.GetBool, Data.SetBool, lookupField_setField]
  cases b <;> rfl

/-- Helper: every digit produced by `decDigitsAux` is below 10. -/
theorem decDigitsAux_lt10 :
    ∀ (fuel n d : Nat), d ∈ decDigitsAux fuel n → d < 10 := by
  intro fuel
  induction fuel with
  | zero => intro n d hd; simp [decDigitsAux] at hd
  | succ m ih =>
    intro n d hd
    simp only [decDigitsAux] at hd
    split at hd
    · simp at hd
    · rcases List.mem_append.mp hd with h | h
      · exact ih _ _ h
      · simp at h; omega

/-- Helper: folding the decimal digits back with base 10 recovers the
number (with an arbitrary accumulator prefix). -/
theorem foldl_decDigitsAux :
    ∀ (fuel n a : Nat), n ≤ fuel →
      List.foldl (fun acc d => acc * 10 + d) a (decDigitsAux fuel n) =
        a * 10 ^ (decDigitsAux fuel n).length + n := by
  intro fuel
  induction fuel with
  | zero =>
    intro n a h
    have : n = 0 := by omega
    simp [this, decDigitsAux]
  | succ m ih =>
    intro n a h
    by_cases hz : n = 0
    · simp [hz, decDigitsAux]
    · have hdiv : n / 10 ≤ m := by omega
      simp only [decDigitsAux, if_neg hz]
      rw [List.foldl_append, ih (n / 10) a hdiv]
      simp only [List.foldl]
      rw [List.length_append, List.length_singleton, pow_succ]
      have hmod : n / 10 * 10 + n % 10 = n := by omega
      calc (a * 10 ^ (decDigitsAux m (n / 10)).length + n / 10) * 10 + n % 10
          = a * (10 ^ (decDigitsAux m (n / 10)).length * 10) +
              (n / 10 * 10 + n % 10) := by ring
        _ = a * (10 ^ (decDigitsAux m (n / 10)).length * 10) + n := by
              rw [hmod]

/-- Helper: the decimal representation is never empty. -/
theorem decDigits_ne_nil (n : Nat) : decDigits n ≠ [] := by
  unfold decDigits
  split
  · simp
  · cases n with
    | zero => simp_all
    | succ m =>
      simp only [decDigitsAux]
      split
      · simp_all
      · simp

/-- Helper: every digit of the decimal representation is below 10. -/
theorem decDigits_lt10 (n d : Nat) (hd : d ∈ decDigits n) : d < 10 := by
  unfold decDigits at hd
  split at hd
  · simp at hd; omega
  · exact decDigitsAux_lt10 n n d hd

/-- Helper: digit characters decode back to their digit value. -/
theorem charDigitVal_digitToChar :
    ∀ d, d < 10 → charDigitVal (digitToChar d) = some d := by
  decide

/-- Helper: parsing the decimal rendering of a 64-bit value recovers it. -/
theorem parse_format_uint (n : Nat) (h : n < 2 ^ 64) :
    parseUintVal (formatUint n) = n := by
  have hdata : (formatUint n).data = (decDigits n).map digitToChar := rfl
  have hne : (decDigits n).map digitToChar ≠ [] := by
    simp [List.map_eq_nil_iff]
    exact decDigits_ne_nil n
  have hall : ((decDigits n).map digitToChar).all
      (fun c => (charDigitVal c).isSome) = true := by
    rw [List.all_eq_true]
    intro c hc
    rcases List.mem_map.mp hc with ⟨d, hd, rfl⟩
    rw [charDigitVal_digitToChar d (decDigits_lt10 n d hd)]
    rfl
  have hfold : ((decDigits n).map digitToChar).foldl
      (fun a c => a * 10 + ((charDigitVal c).getD 0)) 0 = n := by
    rw [List.foldl_map]
    have hext : List.foldl (fun a d => a * 10 + ((charDigitVal (digitToChar d)).getD 0)) 0
        (decDigits n) = List.foldl (fun a d => a * 10 + d) 0 (decDigits n) := by
      apply List.foldl_ext
      intro a d hd
      rw [charDigitVal_digitToChar d (decDigits_lt10 n d hd)]
      rfl
    rw [hext]
    unfold decDigits
    split
    · simp_all
    · rw [foldl_decDigitsAux n n 0 (le_refl n)]
      simp
  unfold parseUintVal
  rw [hdata]
  rw [if_neg hne, if_pos hall, hfold, if_pos h]

/-- Helper: unsigned 64-bit round trip through the decimal encoding. -/
theorem getUint64_setUint64 (d : Data) (f : String) (n : Nat)
    (h : n < 2 ^ 64) : Data.GetUint64 (Data.SetUint64 d f n) f = n := by
  simp only [Data.GetUint64, Data.SetUint64, lookupField_setField]
  exact parse_format_uint n h

/-- Helper: alphabet characters decode back to their 6-bit value. -/
theorem b64val_b64char : ∀ v, v < 64 → b64val (b64char v) = some v := by
  decide

/-- Helper: alphabet characters are never the padding character. -/
theorem b64char_ne_pad : ∀ v, v < 64 → b64char v ≠ '=' := by
  decide

/-- Helper: base64 URL decoding inverts encoding on byte values. -/
theorem b64_decode_encode :
    ∀ (s : List Nat), (∀ b ∈ s, b < 256) → b64decode (b64encode s) = some s
  | [], _ => rfl
  | [b1], h => by
    have h1 : b1 < 256 := h b1 (by simp)
    have e1 := b64val_b64char (b1 / 4) (by omega)
    have e2 := b64val_b64char (b1 % 4 * 16) (by omega)
    simp [b64encode, b64decode, e1, e2]
    omega
  | [b1, b2], h => by
    have h1 : b1 < 256 := h b1 (by simp)
    have h2 : b2 < 256 := h b2 (by simp)
    have e1 := b64val_b64char (b1 / 4) (by omega)
    have e2 := b64val_b64char (b1 % 4 * 16 + b2 / 16) (by omega)
    have e3 := b64val_b64char (b2 % 16 * 4) (by omega)
    have ne3 := b64char_ne_pad (b2 % 16 * 4) (by omega)
    simp [b64encode, b64decode, e1, e2, e3, ne3]
    omega
  | b1 :: b2 :: b3 :: rest, h => by
    have ih := b64_decode_encode rest (fun b hb => h b (by simp [hb]))
    have h1 : b1 < 256 := h b1 (by simp)
    have h2 : b2 < 256 := h b2 (by simp)
    have h3 : b3 < 256 := h b3 (by simp)
    have e1 := b64val_b64char (b1 / 4) (by omega)
    have e2 := b64val_b64char (b1 % 4 * 16 + b2 / 16) (by omega)
    have e3 := b64val_b64char (b2 % 16 * 4 + b3 / 64) (by omega)
    have e4 := b64val_b64char (b3 % 64) (by omega)
    have ne3 := b64char_ne_pad (b2 % 16 * 4 + b3 / 64) (by omega)
    have ne4 := b64char_ne_pad (b3 % 64) (by omega)
    simp [b64encode, b64decode, e1, e2, e3, e4, ne3, ne4, ih]
    omega

/-- Helper: encoding a non-empty byte sequence is non-empty. -/
theorem b64encode_ne_nil (s : List Nat) (h : s ≠ []) : b64encode s ≠ [] := by
  match s with
  | [] => exact absurd rfl h
  | [b1] => simp [b64encode]
  | [b1, b2] => simp [b64encode]
  | b1 :: b2 :: b3 :: rest => simp [b64encode]

/-- Helper: byte-sequence round trip through the base64 URL encoding, for
non-empty sequences of byte values. -/
theorem getBytes_setBytes (d : Data) (f : String) (s : List Nat)
    (hne : s ≠ []) (hb : ∀ b ∈ s, b < 256) :
    Data.GetBytes (Data.SetBytes d f s) f = .ok s := by
  simp only [Data.GetBytes, Data.SetBytes, lookupField_setField]
  have hlen : ¬ (String.mk (b64encode s)).length = 0 := by
    show ¬ (b64encode s).length = 0
    simp only [List.length_eq_zero]
    exact b64encode_ne_nil s hne
  rw [if_neg hlen]
  show (match b64decode (b64encode s) with
    | some bs => Except.ok bs
    | none => Except.error "getbytes: illegal base64 data") = Except.ok s
  rw [b64_decode_encode s hb]

/-- Helper: a stored string that is not valid base64 makes `GetBytes`
fail with the decode error (never a default value). -/
theorem getBytes_invalid (d : Data) (f v : String) (hne : ¬ v.length = 0)
    (hbad : b64decode v.data = none) :
    Data.GetBytes (Data.SetString d f v) f =
      .error "getbytes: illegal base64 data" := by
  simp only [Data.GetBytes, Data.SetString, lookupField_setField]
  rw [if_neg hne]
  show (match b64decode v.data with
    | some bs => Except.ok bs
    | none => Except.error "getbytes: illegal base64 data") = _
  rw [hbad]

/-- C7 counterexample. For the EMPTY byte sequence the round trip fails:
`SetBytes` stores the empty string (base64 of zero bytes) and `GetBytes`
rejects an empty stored string with its "is empty" error instead of
returning the empty sequence. -/
theorem c7_roundtrip_counterexample :
    Data.GetBytes (Data.SetBytes NewData "f" []) "f" =
      .error "getbytes:f is empty" := by
  rfl

/-- C7 (amended): `GetBool` after `SetBool` returns the boolean for every
boolean; `GetUint64` after `SetUint64` returns the value for every
unsigned 64-bit integer; `GetBytes` after `SetBytes` returns the byte
sequence for every NON-EMPTY sequence of byte values (the empty sequence
round-trips to an "is empty" error instead); and when the stored string is
not valid base64, `GetBytes` returns an error, not a default value. -/
theorem c7_roundtrip_amended :
    (∀ (d : Data) (f : String) (b : Bool),
      Data.GetBool (Data.SetBool d f b) f = b) ∧
    (∀ (d : Data) (f : String) (n : Nat), n < 2 ^ 64 →
      Data.GetUint64 (Data.SetUint64 d f n) f = n) ∧
    (∀ (d : Data) (f : String) (s : List Nat), s ≠ [] → (∀ b ∈ s, b < 256) →
      Data.GetBytes (Data.SetBytes d f s) f = .ok s) ∧
    (∀ (d : Data) (f v : String), ¬ v.length = 0 → b64decode v.data = none →
      isErrRes (Data.GetBytes (Data.SetString d f v) f) = true) :=
  ⟨getBool_setBool, getUint64_setUint64, getBytes_setBytes,
    fun d f v hne hbad => by rw [getBytes_invalid d f v hne hbad]; rfl⟩

/-- C7 witness: the amended theorem at concrete values (`true`, `1234`,
the bytes of `"hi"`, and the non-base64 stored string `"@@@@"`). -/
theorem c7_roundtrip_amended_witness :
    (Data.GetBool (Data.SetBool NewData "b" true) "b" = true) ∧
    (Data.GetUint64 (Data.SetUint64 NewData "n" 1234) "n" = 1234) ∧
    (Data.GetBytes (Data.SetBytes NewData "s" [104, 105]) "s" =
      .ok [104, 105]) ∧
    (isErrRes (Data.GetBytes (Data.SetString NewData "x" "@@@@") "x") = true) :=
  ⟨c7_roundtrip_amended.1 NewData "b" true,
   c7_roundtrip_amended.2.1 NewData "n" 1234 (by norm_num),
   c7_roundtrip_amended.2.2.1 NewData "s" [104, 105] (by simp) (by decide),
   c7_roundtrip_amended.2.2.2 NewData "x" "@@@@" (by decide) (by decide)⟩

end Vault
